import Mathlib

/-!
Verification development for the `rerun_bridge` ROS-to-Rerun visualizer node.

The C++ sources (`visualizer_node.cpp`, `visualizer_node.hpp`,
`rerun_ros_interface.cpp`) are shallowly embedded below: strings are
`String` / `List Char`, `std::map` is modelled either as an association
list (`List (String × String)`, looked up with `List.lookup`) or as a
function `String → Option String` (for the frame maps built by
`_add_tf_tree`), `double` timestamps are `ℚ`, and the side effects on the
recording stream (`set_time_seconds`, `log`, `ROS_WARN`) are reified as an
`Event` list.
-/

namespace RerunBridge

/-! ## String helpers -/

/-- Index of the last occurrence of `c` in a character list, if any.
Models `std::string::rfind` and the reverse-iterator
`std::find(rbegin, rend, c)` idiom of `_resolve_entity_path`. -/
def lastIdxOf (c : Char) : List Char → Option Nat
  | [] => none
  | x :: xs =>
    match lastIdxOf c xs with
    | some i => some (i + 1)
    | none => if x = c then some 0 else none

/-- `std::replace(first, last, old, new)` over a whole list,
specialized to replacing slashes by dashes. -/
def replaceSlashes (s : List Char) : List Char :=
  s.map (fun c => if c = '/' then '-' else c)

/-- `parent_entity_path` from `visualizer_node.cpp`: everything before the
last `/`, or `""` when the path has no `/`. -/
def parent_entity_path (entity_path : String) : String :=
  match lastIdxOf '/' entity_path.toList with
  | none => ""
  | some i => String.mk (entity_path.toList.take i)

/-! ## Entity path resolver (`RerunLoggerNode::_resolve_entity_path`) -/

/-- The fallback flattening of `_resolve_entity_path`: find the last `/`
(via reverse iterators); if it is not the first character, replace every
`/` strictly between position 1 and the last slash by `-`.
The source's reverse-iterator arithmetic is undefined when the topic
contains no `/` at all (ROS topic names always do); in that case we
leave the string unchanged. -/
def flattenTopic (s : List Char) : List Char :=
  match lastIdxOf '/' s with
  | none => s
  | some i =>
    if i = 0 then s
    else s.take 1 ++ replaceSlashes ((s.drop 1).take (i - 1)) ++ s.drop i

/-- `RerunLoggerNode::_resolve_entity_path`: an explicit override table
(`_topic_to_entity_path`, a `std::map`) consulted first, otherwise the
flattened topic prefixed by `"/topics"`. -/
def resolve_entity_path (table : List (String × String)) (topic : String) : String :=
  match table.lookup topic with
  | some v => v
  | none => "/topics" ++ String.mk (flattenTopic topic.toList)

/-- `RerunLoggerNode::_create_camera_info_subscriber` entity-path choice:
if the topic is not explicitly mapped, use the parent of the resolved
path (sibling-of-image convention). -/
def camera_info_entity_path (table : List (String × String)) (topic : String) : String :=
  let entity_path := resolve_entity_path table topic
  if (table.lookup topic).isSome then entity_path else parent_entity_path entity_path

/-! ## Timestamp normalizer (`RerunLoggerNode::_normalize_timestamp`) -/

/-- The two mutable members of `RerunLoggerNode` backing timestamp
normalization (`_time_offset`, `_time_offset_initialized`), set to
`0.0` / `false` in the constructor. -/
structure NormState where
  time_offset : ℚ
  time_offset_initialized : Bool
deriving DecidableEq, Repr

/-- The constructor's initialization of the normalizer state. -/
def initNormState : NormState := ⟨0, false⟩

/-- `RerunLoggerNode::_normalize_timestamp`: on the first call capture the
stamp as the offset, then always return `stamp - offset`.  Returned as a
value/state pair since the members are `mutable`. -/
def normalize_timestamp (st : NormState) (stamp : ℚ) : ℚ × NormState :=
  let st' := if st.time_offset_initialized then st else ⟨stamp, true⟩
  (stamp - st'.time_offset, st')

/-! ## Sink events

Every visible side effect of a transcoder on the recording stream /
logger is reified: `rec.set_time_seconds("timestamp", t)` becomes
`Event.setTime t`, `rec.log(path, value)` becomes `Event.log path value`,
`ROS_WARN(...)` becomes `Event.warn msg`. -/

/-- Structured values logged by `rerun_ros_interface.cpp` (only the
fields the claims are about are carried). -/
inductive LogValue where
  /-- `rerun::Scalar` -/
  | scalar (x : ℚ)
  /-- `rerun::DepthImage`; `meter` is the argument of `.with_meter`,
  i.e. the number of depth units per meter. -/
  | depthImage (rows cols : Nat) (meter : ℚ)
  /-- `rerun::Image` after conversion to 8-bit 3-channel `rgb8`. -/
  | colorImage (rows cols : Nat)
  /-- `rerun::Transform3D` of a translation and a wxyz quaternion. -/
  | transform3D (tx ty tz qw qx qy qz : ℚ)
  /-- `rerun::Points3D` with a single point. -/
  | points3D (x y z : ℚ)
  /-- `rerun::Pinhole` with its resolution. -/
  | pinhole (k : List ℚ) (width height : Nat)
deriving DecidableEq, Repr

/-- One observable side effect on the sink. -/
inductive Event where
  | setTime (t : ℚ)
  | log (entity_path : String) (value : LogValue)
  | warn (msg : String)
deriving DecidableEq, Repr

/-- Rerun's documented meaning of `DepthImage::with_meter(m)`: `m` depth
units per meter, so one depth unit is `1 / m` meters (`with_meter(1000)`
declares millimeter data). -/
def metersPerDepthUnit (meter : ℚ) : ℚ := 1 / meter

/-- Is the event a `rec.log` emission? -/
def Event.isLog : Event → Bool
  | .log _ _ => true
  | _ => false

/-- Is the event a call to `rec.set_time_seconds`? -/
def Event.isSetTime : Event → Bool
  | .setTime _ => true
  | _ => false

/-- Is the event a `ROS_WARN`? -/
def Event.isWarn : Event → Bool
  | .warn _ => true
  | _ => false

/-- Is the event the emission of a `rerun::DepthImage`? -/
def Event.isDepth : Event → Bool
  | .log _ (.depthImage _ _ _) => true
  | _ => false

/-- The timestamps set on the timeline by a list of events. -/
def setTimes (events : List Event) : List ℚ :=
  events.filterMap (fun e =>
    match e with
    | .setTime t => some t
    | _ => none)

/-! ## Decoded ROS messages

Each message type carries its `header.stamp` (seconds, as `ℚ`) and the
fields the transcoders read. -/

/-- `geometry_msgs/Vector3` / `Point`. -/
structure Vec3 where
  x : ℚ
  y : ℚ
  z : ℚ
deriving DecidableEq, Repr

/-- `geometry_msgs/Quaternion`. -/
structure Quat where
  x : ℚ
  y : ℚ
  z : ℚ
  w : ℚ
deriving DecidableEq, Repr

/-- `sensor_msgs/Imu` (the bridge only reads `linear_acceleration`). -/
structure ImuMsg where
  stamp : ℚ
  linear_acceleration : Vec3
deriving DecidableEq, Repr

/-- `sensor_msgs/Image` (pixel decoding is delegated to `cv_bridge`;
we keep the declared encoding and the decoded matrix extents). -/
structure ImageMsg where
  stamp : ℚ
  frame_id : String
  encoding : String
  rows : Nat
  cols : Nat
deriving DecidableEq, Repr

/-- `geometry_msgs/PoseStamped`. -/
structure PoseStampedMsg where
  stamp : ℚ
  position : Vec3
  orientation : Quat
deriving DecidableEq, Repr

/-- `nav_msgs/Odometry` (only `pose.pose` is read). -/
structure OdometryMsg where
  stamp : ℚ
  position : Vec3
  orientation : Quat
deriving DecidableEq, Repr

/-- `sensor_msgs/CameraInfo`: the row-major 3×3 intrinsic matrix `K`
and the resolution. -/
structure CameraInfoMsg where
  stamp : ℚ
  K : Fin 9 → ℚ
  width : Nat
  height : Nat

/-- `geometry_msgs/TransformStamped`: one entry of a `tf2_msgs/TFMessage`. -/
structure TransformStampedMsg where
  stamp : ℚ
  frame_id : String
  child_frame_id : String
  translation : Vec3
  rotation : Quat
deriving DecidableEq, Repr

/-- `tf2_msgs/TFMessage`. -/
structure TFMessageMsg where
  transforms : List TransformStampedMsg
deriving DecidableEq, Repr

/-! ## Transcoders (`rerun_ros_interface.cpp`) -/

/-- `log_imu`: set the timeline once, then three scalar series. -/
def log_imu (entity_path : String) (msg : ImuMsg) (normalized_timestamp : ℚ) : List Event :=
  [ .setTime normalized_timestamp,
    .log (entity_path ++ "/x") (.scalar msg.linear_acceleration.x),
    .log (entity_path ++ "/y") (.scalar msg.linear_acceleration.y),
    .log (entity_path ++ "/z") (.scalar msg.linear_acceleration.z) ]

/-- `log_image`: branch on the declared encoding; `16UC1` is a depth
image with `with_meter(1000)`, `32FC1` a depth image with
`with_meter(1.0)`, everything else is converted to `rgb8` and logged as
a color image. -/
def log_image (entity_path : String) (msg : ImageMsg) (normalized_timestamp : ℚ) : List Event :=
  .setTime normalized_timestamp ::
  (if msg.encoding = "16UC1" then
    [.log entity_path (.depthImage msg.rows msg.cols 1000)]
  else if msg.encoding = "32FC1" then
    [.log entity_path (.depthImage msg.rows msg.cols 1)]
  else
    [.log entity_path (.colorImage msg.rows msg.cols)])

/-- `log_pose_stamped`: a rigid transform at the entity path plus a
single trajectory point at `/trajectories/<path>`. -/
def log_pose_stamped (entity_path : String) (msg : PoseStampedMsg)
    (normalized_timestamp : ℚ) : List Event :=
  [ .setTime normalized_timestamp,
    .log entity_path (.transform3D msg.position.x msg.position.y msg.position.z
      msg.orientation.w msg.orientation.x msg.orientation.y msg.orientation.z),
    .log ("/trajectories/" ++ entity_path)
      (.points3D msg.position.x msg.position.y msg.position.z) ]

/-- `log_tf_message`: for each entry, skip with a warning when the child
frame is not in `tf_frame_to_entity_path`, otherwise set the timeline to
the (single, batch-wide) normalized timestamp and log a rigid transform
at the mapped path. -/
def log_tf_message (tf_frame_to_entity_path : String → Option String)
    (msg : TFMessageMsg) (normalized_timestamp : ℚ) : List Event :=
  msg.transforms.foldl
    (fun events transform =>
      match tf_frame_to_entity_path transform.child_frame_id with
      | none => events ++ [.warn transform.child_frame_id]
      | some path =>
        events ++
          [ .setTime normalized_timestamp,
            .log path (.transform3D transform.translation.x transform.translation.y
              transform.translation.z transform.rotation.w transform.rotation.x
              transform.rotation.y transform.rotation.z) ])
    []

/-- `log_odometry`: a rigid transform from the pose sub-field. -/
def log_odometry (entity_path : String) (msg : OdometryMsg)
    (normalized_timestamp : ℚ) : List Event :=
  [ .setTime normalized_timestamp,
    .log entity_path (.transform3D msg.position.x msg.position.y msg.position.z
      msg.orientation.w msg.orientation.x msg.orientation.y msg.orientation.z) ]

/-- `log_camera_info`: reorder `K` into column-major order and log a
pinhole model.  Note: unlike every other transcoder, the source never
calls `rec.set_time_seconds` here. -/
def log_camera_info (entity_path : String) (msg : CameraInfoMsg)
    (normalized_timestamp : ℚ) : List Event :=
  [ .log entity_path
      (.pinhole [msg.K 0, msg.K 3, msg.K 6, msg.K 1, msg.K 4, msg.K 7,
        msg.K 2, msg.K 5, msg.K 8] msg.width msg.height) ]

/-- `log_transform` (used by the periodic sampler and the image
callback's opportunistic transform lookup). -/
def log_transform (entity_path : String) (msg : TransformStampedMsg)
    (normalized_timestamp : ℚ) : List Event :=
  [ .setTime normalized_timestamp,
    .log entity_path (.transform3D msg.translation.x msg.translation.y
      msg.translation.z msg.rotation.w msg.rotation.x msg.rotation.y msg.rotation.z) ]

/-! ## Subscriber callbacks (`visualizer_node.cpp`)

Each `_create_*_subscriber` lambda normalizes the message's own header
stamp through the shared mutable normalizer state and hands the result to
its transcoder, so a callback is a function
`NormState → msg → NormState × List Event`. -/

/-- The `sensor_msgs/Imu` callback. -/
def imu_callback (entity_path : String) (st : NormState) (msg : ImuMsg) :
    NormState × List Event :=
  let r := normalize_timestamp st msg.stamp
  (r.2, log_imu entity_path msg r.1)

/-- The `sensor_msgs/Image` callback.  `tf_lookup` stands for the result
of `_tf_buffer.lookupTransform(root_frame, msg.frame_id, msg.stamp, 0.1)`:
`some tr` on success, `none` when it throws `tf2::TransformException`.
`lookup_transform` is the captured flag
`_topic_to_entity_path.find(topic) == end`. -/
def image_callback (entity_path root_frame : String) (lookup_transform : Bool)
    (tf_lookup : Option TransformStampedMsg) (st : NormState) (msg : ImageMsg) :
    NormState × List Event :=
  let r := normalize_timestamp st msg.stamp
  let tfEvents :=
    if root_frame ≠ "" ∧ lookup_transform then
      match tf_lookup with
      | some transform => log_transform (parent_entity_path entity_path) transform r.1
      | none => [.warn "lookupTransform failed"]
    else []
  (r.2, tfEvents ++ log_image entity_path msg r.1)

/-- The `geometry_msgs/PoseStamped` callback. -/
def pose_stamped_callback (entity_path : String) (st : NormState)
    (msg : PoseStampedMsg) : NormState × List Event :=
  let r := normalize_timestamp st msg.stamp
  (r.2, log_pose_stamped entity_path msg r.1)

/-- The `tf2_msgs/TFMessage` callback reads
`msg->transforms[0].header.stamp` with no emptiness check;
`std::vector::operator[]` on an empty vector is out of bounds, so the
embedding returns `none` exactly there. -/
def tf_message_callback (tf_frame_to_entity_path : String → Option String)
    (st : NormState) (msg : TFMessageMsg) : Option (NormState × List Event) :=
  match msg.transforms.get? 0 with
  | none => none
  | some first =>
    let r := normalize_timestamp st first.stamp
    some (r.2, log_tf_message tf_frame_to_entity_path msg r.1)

/-- The `nav_msgs/Odometry` callback. -/
def odometry_callback (entity_path : String) (st : NormState) (msg : OdometryMsg) :
    NormState × List Event :=
  let r := normalize_timestamp st msg.stamp
  (r.2, log_odometry entity_path msg r.1)

/-- The `sensor_msgs/CameraInfo` callback (the entity path it captures is
`camera_info_entity_path`). -/
def camera_info_callback (entity_path : String) (st : NormState)
    (msg : CameraInfoMsg) : NormState × List Event :=
  let r := normalize_timestamp st msg.stamp
  (r.2, log_camera_info entity_path msg r.1)

/-! ## Frame tree construction (`RerunLoggerNode::_add_tf_tree`) -/

/-- A parsed `tf.tree` YAML node: a map of frame name to subtree. -/
inductive TfTree where
  | node (children : List (String × TfTree))

/-- The children of a tree node (`YAML::Node` iteration). -/
def TfTree.children : TfTree → List (String × TfTree)
  | .node cs => cs

/-- The two frame maps filled by `_add_tf_tree`
(`_tf_frame_to_entity_path` and `_tf_frame_to_parent`), as functions
since `std::map` assignment overwrites. -/
structure FrameMaps where
  toEntityPath : String → Option String
  toParent : String → Option String

/-- `std::map` subscript-assignment. -/
def mapInsert (m : String → Option String) (k v : String) : String → Option String :=
  fun q => if q = k then some v else m q

/-- `RerunLoggerNode::_add_tf_tree`: depth-first over the declaration;
each frame gets entity path `parent_entity_path ++ "/" ++ frame` and
parent frame `parent_frame`, and we recurse into its children (the
source guards the recursion with `value.size() >= 1`) with the frame's
own path and name as the new context. -/
def add_tf_tree (children : List (String × TfTree))
    (parent_path parent_frame : String) (maps : FrameMaps) : FrameMaps :=
  match children with
  | [] => maps
  | (frame, value) :: rest =>
    let entity_path := parent_path ++ "/" ++ frame
    let maps1 : FrameMaps :=
      ⟨mapInsert maps.toEntityPath frame entity_path,
        mapInsert maps.toParent frame parent_frame⟩
    let maps2 :=
      if value.children.length ≥ 1 then
        add_tf_tree value.children entity_path frame maps1
      else maps1
    add_tf_tree rest parent_path parent_frame maps2
termination_by (sizeOf children, 0)
decreasing_by
  all_goals simp_wf
  · left
    cases value
    simp [TfTree.children]
    omega
  · left
    omega

/-- The empty frame maps the node starts with. -/
def emptyFrameMaps : FrameMaps := ⟨fun _ => none, fun _ => none⟩

/-- All frame names occurring anywhere in a declaration forest. -/
def tfTreeFrames (children : List (String × TfTree)) : List String :=
  match children with
  | [] => []
  | (frame, value) :: rest => frame :: tfTreeFrames value.children ++ tfTreeFrames rest
termination_by (sizeOf children, 0)
decreasing_by
  all_goals simp_wf
  · left
    cases value
    simp [TfTree.children]
    omega
  · left
    omega

/-! ## Dynamic subscription discovery (`RerunLoggerNode::_create_subscribers`) -/

/-- The datatype dispatch chain of `_create_subscribers`: the six
supported message kinds. -/
def supported_datatype (datatype : String) : Bool :=
  datatype = "sensor_msgs/Image" ∨ datatype = "sensor_msgs/Imu" ∨
    datatype = "geometry_msgs/PoseStamped" ∨ datatype = "tf2_msgs/TFMessage" ∨
    datatype = "nav_msgs/Odometry" ∨ datatype = "sensor_msgs/CameraInfo"

/-- `RerunLoggerNode::_create_subscribers`: iterate over the topic
registry (`ros::master::getTopics`); skip topics already present in
`_topic_to_subscriber`; create and record a subscriber for each new topic
of a supported datatype.  The binding value we retain is the topic's
datatype (standing for the opaque `ros::Subscriber`). -/
def create_subscribers (subs : String → Option String)
    (registry : List (String × String)) : String → Option String :=
  registry.foldl
    (fun subs topic_info =>
      if (subs topic_info.1).isSome then subs
      else if supported_datatype topic_info.2 then
        mapInsert subs topic_info.1 topic_info.2
      else subs)
    subs

/-! ## Configuration and `spin` (tf update rate) -/

/-- The member `float _tf_fixed_rate;` of `RerunLoggerNode`.  It has no
default initializer and the constructor never assigns it, so before
`_read_yaml_config` runs it holds an indeterminate value: modelled as
`none` = indeterminate, `some r` = the member was written with `r`. -/
def tf_fixed_rate_initial : Option ℚ := none

/-- The `tf.update_rate` handling of `_read_yaml_config`: the member is
assigned only when both `config["tf"]` and `config["tf"]["update_rate"]`
are present (`update_rate` is `some r` exactly then). -/
def read_yaml_tf_rate (member : Option ℚ) (update_rate : Option ℚ) : Option ℚ :=
  match update_rate with
  | some r => some r
  | none => member

/-- The guard in `RerunLoggerNode::spin` deciding whether the periodic
tf timer is created: `_tf_fixed_rate != 0.0`.  It reads the member, so
on an indeterminate member the outcome is itself indeterminate (`none`). -/
def spin_creates_tf_timer (member : Option ℚ) : Option Bool :=
  match member with
  | some r => some (r ≠ 0)
  | none => none

/-! ## Helper lemmas -/

theorem take_length_append (l₁ l₂ : List Char) : (l₁ ++ l₂).take l₁.length = l₁ := by
  induction l₁ with
  | nil => rfl
  | cons x xs ih => simp [ih]

theorem drop_length_append (l₁ l₂ : List Char) : (l₁ ++ l₂).drop l₁.length = l₂ := by
  induction l₁ with
  | nil => rfl
  | cons x xs ih => simp [ih]

theorem lastIdxOf_eq_none {c : Char} {l : List Char} (h : c ∉ l) :
    lastIdxOf c l = none := by
  induction l with
  | nil => rfl
  | cons x xs ih =>
    simp only [List.mem_cons, not_or] at h
    have hxc : ¬x = c := fun hxc => h.1 hxc.symm
    simp [lastIdxOf, ih h.2, hxc]

theorem lastIdxOf_append_cons {c : Char} (xs : List Char) {ys : List Char} (h : c ∉ ys) :
    lastIdxOf c (xs ++ c :: ys) = some xs.length := by
  induction xs with
  | nil => simp [lastIdxOf, lastIdxOf_eq_none h]
  | cons x xs ih => simp [lastIdxOf, ih]

theorem flattenTopic_append (pre last : List Char) (h : '/' ∉ last) :
    flattenTopic ('/' :: pre ++ '/' :: last) = '/' :: replaceSlashes pre ++ '/' :: last := by
  have hidx : lastIdxOf '/' (('/' :: pre) ++ '/' :: last) = some ('/' :: pre).length :=
    lastIdxOf_append_cons _ h
  simp only [List.length_cons] at hidx
  simp only [flattenTopic, hidx]
  have h1 : pre.length + 1 ≠ 0 := Nat.succ_ne_zero _
  rw [if_neg h1]
  simp only [List.cons_append, Nat.add_sub_cancel, List.drop_succ_cons, List.drop_zero]
  rw [take_length_append, drop_length_append]
  simp [List.take_succ_cons]

theorem flattenTopic_single (rest : List Char) (h : '/' ∉ rest) :
    flattenTopic ('/' :: rest) = '/' :: rest := by
  have hidx : lastIdxOf '/' ([] ++ '/' :: rest) = some (0 : Nat) :=
    lastIdxOf_append_cons [] h
  simp only [List.nil_append] at hidx
  simp [flattenTopic, hidx]

theorem string_append_mk (s : String) (l : List Char) :
    s ++ String.mk l = String.mk (s.toList ++ l) := rfl

theorem string_mk_toList (s : String) : String.mk s.toList = s := rfl

/-! ## C1: the entity path resolver -/

/-- **C1**: `_resolve_entity_path` is total on topic names: a topic in
the override table resolves to exactly the configured value whatever its
shape; any other topic gets the deterministic fallback that prefixes
`/topics`, keeps the leading `/` and the final segment, and replaces
every other `/` by `-`; in particular
`resolve("/one/two/three/four") = "/topics/one-two-three/four"`,
`resolve("/single") = "/topics/single"` and `resolve("/a") = "/topics/a"`. -/
theorem c1_entity_path_resolver (table : List (String × String)) (topic : String) :
    (∀ v, table.lookup topic = some v → resolve_entity_path table topic = v) ∧
    (∀ pre last, table.lookup topic = none →
      topic.toList = '/' :: pre ++ '/' :: last → '/' ∉ last →
      resolve_entity_path table topic =
        String.mk ("/topics".toList ++ '/' :: replaceSlashes pre ++ '/' :: last)) ∧
    (∀ rest, table.lookup topic = none → topic.toList = '/' :: rest → '/' ∉ rest →
      resolve_entity_path table topic = "/topics" ++ topic) ∧
    resolve_entity_path [] "/one/two/three/four" = "/topics/one-two-three/four" ∧
    resolve_entity_path [] "/single" = "/topics/single" ∧
    resolve_entity_path [] "/a" = "/topics/a" := by
  refine ⟨?_, ?_, ?_, by decide, by decide, by decide⟩
  · intro v hv
    simp [resolve_entity_path, hv]
  · intro pre last hnone htop hlast
    simp only [resolve_entity_path, hnone, string_append_mk]
    rw [htop, flattenTopic_append pre last hlast]
    simp [List.append_assoc]
  · intro rest hnone htop hlast
    simp only [resolve_entity_path, hnone, string_append_mk]
    rw [htop, flattenTopic_single rest hlast, ← htop, ← string_append_mk, string_mk_toList]

/-- Witness for C1 at concrete inputs: an overridden topic returns the
configured value, and the fallback decomposition holds on
`/one/two/three/four`. -/
theorem c1_entity_path_resolver_witness :
    resolve_entity_path [("/a", "weird value")] "/a" = "weird value" ∧
    resolve_entity_path [] "/one/two/three/four" =
      String.mk ("/topics".toList ++ '/' :: replaceSlashes "one/two/three".toList ++
        '/' :: "four".toList) :=
  ⟨(c1_entity_path_resolver [("/a", "weird value")] "/a").1 "weird value" (by decide),
    (c1_entity_path_resolver [] "/one/two/three/four").2.1 "one/two/three".toList
      "four".toList (by decide) (by decide) (by decide)⟩

/-! ## C2: the timestamp normalizer -/

/-- **C2**: the first call of `_normalize_timestamp` (from any caller)
with raw time `T0` captures `T0` as the process-wide offset and returns
`0`; every later call with raw time `T1` returns `T1 - T0` — negative
when `T1 < T0`, with no clamping — and leaves the state (hence the
offset) unchanged. -/
theorem c2_normalize_timestamp (t0 t1 : ℚ) (st : NormState) :
    (st.time_offset_initialized = false →
      normalize_timestamp st t0 = (0, ⟨t0, true⟩)) ∧
    (normalize_timestamp ⟨t0, true⟩ t1 = (t1 - t0, ⟨t0, true⟩)) ∧
    (t1 < t0 → (normalize_timestamp ⟨t0, true⟩ t1).1 < 0) := by
  refine ⟨?_, ?_, ?_⟩
  · intro h
    simp [normalize_timestamp, h]
  · simp [normalize_timestamp]
  · intro h
    simp only [normalize_timestamp]
    simpa using sub_neg.mpr h

/-- Witness for C2: starting from the constructor's state, a first call
at `10` returns `0` and pins the offset; a later call at `7` returns the
negative value `-3`. -/
theorem c2_normalize_timestamp_witness :
    normalize_timestamp initNormState 10 = (0, ⟨10, true⟩) ∧
    normalize_timestamp ⟨10, true⟩ 7 = (7 - 10, ⟨10, true⟩) ∧
    (normalize_timestamp ⟨10, true⟩ 7).1 < 0 :=
  ⟨(c2_normalize_timestamp 10 7 initNormState).1 rfl,
    (c2_normalize_timestamp 10 7 initNormState).2.1,
    (c2_normalize_timestamp 10 7 initNormState).2.2 (by norm_num)⟩

/-! ## C6: camera-intrinsics sibling convention -/

/-- **C6**: a camera-intrinsics topic with no override resolves to the
parent of the path the fallback resolver would produce; concretely, with
an empty override table `/camera/image_raw` resolves to
`/topics/camera/image_raw` and `/camera/camera_info` to
`/topics/camera`. -/
theorem c6_camera_info_sibling (table : List (String × String)) (topic : String) :
    (table.lookup topic = none →
      camera_info_entity_path table topic =
        parent_entity_path (resolve_entity_path table topic)) ∧
    resolve_entity_path [] "/camera/image_raw" = "/topics/camera/image_raw" ∧
    camera_info_entity_path [] "/camera/camera_info" = "/topics/camera" := by
  refine ⟨?_, by decide, by decide⟩
  intro h
  simp [camera_info_entity_path, h]

/-- Witness for C6: the un-overridden intrinsics topic goes to the
parent of its fallback resolution. -/
theorem c6_camera_info_sibling_witness :
    camera_info_entity_path [] "/camera/camera_info" =
      parent_entity_path (resolve_entity_path [] "/camera/camera_info") :=
  (c6_camera_info_sibling [] "/camera/camera_info").1 rfl

/-! ## C5: image transcoder dispatch -/

/-- **C5**: `log_image` branches only on the declared encoding: `16UC1`
yields a depth emission whose `with_meter` argument `1000` means one
depth unit is `1/1000` meters (millimeters), `32FC1` yields a depth
emission at scale `1`, and every other encoding yields an 8-bit
3-channel color emission and never a depth emission. -/
theorem c5_log_image_dispatch (entity_path : String) (msg : ImageMsg) (t : ℚ) :
    (msg.encoding = "16UC1" →
      log_image entity_path msg t =
        [.setTime t, .log entity_path (.depthImage msg.rows msg.cols 1000)] ∧
      metersPerDepthUnit 1000 = 1 / 1000) ∧
    (msg.encoding = "32FC1" →
      log_image entity_path msg t =
        [.setTime t, .log entity_path (.depthImage msg.rows msg.cols 1)] ∧
      metersPerDepthUnit 1 = 1) ∧
    (msg.encoding ≠ "16UC1" → msg.encoding ≠ "32FC1" →
      log_image entity_path msg t =
        [.setTime t, .log entity_path (.colorImage msg.rows msg.cols)] ∧
      ∀ e ∈ log_image entity_path msg t, e.isDepth = false) := by
  refine ⟨?_, ?_, ?_⟩
  · intro h
    refine ⟨?_, by norm_num [metersPerDepthUnit]⟩
    simp [log_image, h]
  · intro h
    have h16 : msg.encoding ≠ "16UC1" := by rw [h]; decide
    refine ⟨?_, by norm_num [metersPerDepthUnit]⟩
    simp [log_image, h, h16]
  · intro h16 h32
    have hev : log_image entity_path msg t =
        [.setTime t, .log entity_path (.colorImage msg.rows msg.cols)] := by
      simp [log_image, h16, h32]
    refine ⟨hev, ?_⟩
    intro e he
    rw [hev] at he
    simp only [List.mem_cons, List.not_mem_nil, or_false] at he
    rcases he with he | he <;> rw [he] <;> rfl

/-- Witness for C5 at the three concrete encodings `16UC1`, `32FC1` and
`rgb8`. -/
theorem c5_log_image_dispatch_witness :
    log_image "/topics/cam" ⟨0, "cam", "16UC1", 4, 6⟩ 2 =
      [.setTime 2, .log "/topics/cam" (.depthImage 4 6 1000)] ∧
    log_image "/topics/cam" ⟨0, "cam", "32FC1", 4, 6⟩ 2 =
      [.setTime 2, .log "/topics/cam" (.depthImage 4 6 1)] ∧
    log_image "/topics/cam" ⟨0, "cam", "rgb8", 4, 6⟩ 2 =
      [.setTime 2, .log "/topics/cam" (.colorImage 4 6)] :=
  ⟨((c5_log_image_dispatch "/topics/cam" ⟨0, "cam", "16UC1", 4, 6⟩ 2).1 rfl).1,
    ((c5_log_image_dispatch "/topics/cam" ⟨0, "cam", "32FC1", 4, 6⟩ 2).2.1 rfl).1,
    ((c5_log_image_dispatch "/topics/cam" ⟨0, "cam", "rgb8", 4, 6⟩ 2).2.2 (by decide)
      (by decide)).1⟩

/-! ## C4: bulk transform-list handling -/

/-- The events that one entry of the `log_tf_message` loop appends: a
lone warning for an unmapped child frame, a timestamped rigid-transform
emission for a mapped one. -/
def tf_entry_events (table : String → Option String) (t : ℚ)
    (transform : TransformStampedMsg) : List Event :=
  match table transform.child_frame_id with
  | none => [.warn transform.child_frame_id]
  | some path =>
    [ .setTime t,
      .log path (.transform3D transform.translation.x transform.translation.y
        transform.translation.z transform.rotation.w transform.rotation.x
        transform.rotation.y transform.rotation.z) ]

theorem log_tf_foldl (table : String → Option String) (t : ℚ)
    (l : List TransformStampedMsg) (acc : List Event) :
    l.foldl
      (fun events transform =>
        match table transform.child_frame_id with
        | none => events ++ [.warn transform.child_frame_id]
        | some path =>
          events ++
            [ .setTime t,
              .log path (.transform3D transform.translation.x transform.translation.y
                transform.translation.z transform.rotation.w transform.rotation.x
                transform.rotation.y transform.rotation.z) ])
      acc
      = acc ++ l.flatMap (tf_entry_events table t) := by
  induction l generalizing acc with
  | nil => simp
  | cons x xs ih =>
    simp only [List.foldl_cons, List.flatMap_cons, ih]
    cases hx : table x.child_frame_id <;>
      simp [tf_entry_events, hx, List.append_assoc]

theorem log_tf_message_eq_bind (table : String → Option String) (msg : TFMessageMsg)
    (t : ℚ) :
    log_tf_message table msg t = msg.transforms.flatMap (tf_entry_events table t) := by
  simp only [log_tf_message]
  rw [log_tf_foldl]
  simp

theorem tf_bind_filter_log (table : String → Option String) (t : ℚ)
    (l : List TransformStampedMsg) :
    (l.flatMap (tf_entry_events table t)).filter Event.isLog =
      l.filterMap (fun transform =>
        (table transform.child_frame_id).map (fun path =>
          Event.log path (.transform3D transform.translation.x transform.translation.y
            transform.translation.z transform.rotation.w transform.rotation.x
            transform.rotation.y transform.rotation.z))) := by
  induction l with
  | nil => rfl
  | cons x xs ih =>
    simp only [List.flatMap_cons, List.filter_append, ih, List.filterMap_cons]
    cases hx : table x.child_frame_id <;> simp [tf_entry_events, hx, Event.isLog]

theorem tf_bind_filter_warn (table : String → Option String) (t : ℚ)
    (l : List TransformStampedMsg) :
    ((l.flatMap (tf_entry_events table t)).filter Event.isWarn).length =
      (l.filter (fun transform => (table transform.child_frame_id).isNone)).length := by
  induction l with
  | nil => rfl
  | cons x xs ih =>
    simp only [List.flatMap_cons, List.filter_append, List.length_append, ih]
    cases hx : table x.child_frame_id <;>
      simp [tf_entry_events, hx, Event.isWarn, Nat.add_comm]

/-- A two-entry batch: `unknown` is absent from the frame table, `base`
is mapped. -/
def exampleTfTable : String → Option String :=
  fun frame => if frame = "base" then some "/map/base" else none

/-- A bulk transform message with one unmapped and one mapped entry. -/
def exampleTfMsg : TFMessageMsg :=
  ⟨[⟨1, "map", "unknown", ⟨0, 0, 0⟩, ⟨0, 0, 0, 1⟩⟩,
    ⟨1, "map", "base", ⟨1, 2, 3⟩, ⟨0, 0, 0, 1⟩⟩]⟩

/-- **C4**: `log_tf_message` is total; its rigid-transform emissions are
exactly one per entry whose child frame is in the frame table, logged at
the mapped path, and each unmapped entry is skipped with exactly one
warning; on a batch with one unmapped and one mapped entry there is
exactly one emission (and one warning). -/
theorem c4_log_tf_message (table : String → Option String) (msg : TFMessageMsg) (t : ℚ) :
    (log_tf_message table msg t).filter Event.isLog =
      msg.transforms.filterMap (fun transform =>
        (table transform.child_frame_id).map (fun path =>
          Event.log path (.transform3D transform.translation.x transform.translation.y
            transform.translation.z transform.rotation.w transform.rotation.x
            transform.rotation.y transform.rotation.z))) ∧
    ((log_tf_message table msg t).filter Event.isWarn).length =
      (msg.transforms.filter (fun transform =>
        (table transform.child_frame_id).isNone)).length ∧
    ((log_tf_message exampleTfTable exampleTfMsg 5).filter Event.isLog).length = 1 ∧
    ((log_tf_message exampleTfTable exampleTfMsg 5).filter Event.isWarn).length = 1 := by
  refine ⟨?_, ?_, by decide, by decide⟩
  · rw [log_tf_message_eq_bind, tf_bind_filter_log]
  · rw [log_tf_message_eq_bind, tf_bind_filter_warn]

/-! ## C7: subscription discovery -/

/-- The step applied by `_create_subscribers` to each registry entry. -/
def subscriber_step (subs : String → Option String) (topic_info : String × String) :
    String → Option String :=
  if (subs topic_info.1).isSome then subs
  else if supported_datatype topic_info.2 then
    mapInsert subs topic_info.1 topic_info.2
  else subs

theorem create_subscribers_eq_foldl (subs : String → Option String)
    (registry : List (String × String)) :
    create_subscribers subs registry = registry.foldl subscriber_step subs := rfl

theorem subscriber_step_preserves (subs : String → Option String)
    (topic_info : String × String) (topic binding : String)
    (h : subs topic = some binding) :
    subscriber_step subs topic_info topic = some binding := by
  by_cases h1 : (subs topic_info.1).isSome
  · simp [subscriber_step, h1, h]
  · by_cases h2 : supported_datatype topic_info.2
    · by_cases h3 : topic = topic_info.1
      · rw [h3] at h
        rw [h] at h1
        simp at h1
      · simp [subscriber_step, h1, h2, mapInsert, h3, h]
    · simp [subscriber_step, h1, h2, h]

theorem create_subscribers_preserves (subs : String → Option String)
    (registry : List (String × String)) (topic binding : String)
    (h : subs topic = some binding) :
    create_subscribers subs registry topic = some binding := by
  rw [create_subscribers_eq_foldl]
  induction registry generalizing subs with
  | nil => exact h
  | cons x xs ih =>
    exact ih (subscriber_step subs x) (subscriber_step_preserves subs x topic binding h)

theorem create_subscribers_cons (subs : String → Option String)
    (x : String × String) (xs : List (String × String)) :
    create_subscribers subs (x :: xs) = create_subscribers (subscriber_step subs x) xs := rfl

theorem create_subscribers_covers (subs : String → Option String)
    (registry : List (String × String)) (topic datatype : String)
    (hmem : (topic, datatype) ∈ registry) (hsup : supported_datatype datatype = true) :
    (create_subscribers subs registry topic).isSome := by
  induction registry generalizing subs with
  | nil => cases hmem
  | cons x xs ih =>
    rw [create_subscribers_cons]
    rcases List.mem_cons.1 hmem with hx | hx
    · have hstep : (subscriber_step subs x topic).isSome := by
        rw [← hx]
        by_cases h1 : (subs topic).isSome
        · simp [subscriber_step, h1]
        · simp [subscriber_step, h1, hsup, mapInsert]
      obtain ⟨b, hb⟩ := Option.isSome_iff_exists.1 hstep
      exact Option.isSome_iff_exists.2
        ⟨b, create_subscribers_preserves (subscriber_step subs x) xs topic b hb⟩
    · exact ih (subscriber_step subs x) hx

theorem create_subscribers_skips (subs : String → Option String)
    (registry : List (String × String))
    (h : ∀ p ∈ registry, supported_datatype p.2 = true → (subs p.1).isSome) :
    ∀ topic, create_subscribers subs registry topic = subs topic := by
  induction registry generalizing subs with
  | nil => intro _; rfl
  | cons x xs ih =>
    intro topic
    have hstep : subscriber_step subs x = subs := by
      by_cases h1 : (subs x.1).isSome
      · simp [subscriber_step, h1]
      · by_cases h2 : supported_datatype x.2
        · exact absurd (h x (List.mem_cons_self x xs) h2) h1
        · simp [subscriber_step, h1, h2]
    rw [create_subscribers_cons, hstep]
    exact ih subs (fun p hp => h p (List.mem_cons_of_mem x hp)) topic

/-- **C7**: `_create_subscribers` keeps at most one binding per topic:
a topic already bound is left untouched (so bindings are never replaced
or removed), and running the poll twice over the same registry gives the
same binding map as running it once. -/
theorem c7_create_subscribers_idempotent (subs : String → Option String)
    (registry : List (String × String)) :
    (∀ topic binding, subs topic = some binding →
      create_subscribers subs registry topic = some binding) ∧
    (∀ topic, create_subscribers (create_subscribers subs registry) registry topic =
      create_subscribers subs registry topic) := by
  refine ⟨fun topic binding h => create_subscribers_preserves subs registry topic binding h, ?_⟩
  exact create_subscribers_skips (create_subscribers subs registry) registry
    (fun p hp hsup => create_subscribers_covers subs registry p.1 p.2 hp hsup)

/-- Witness for C7: a pre-existing binding survives a poll that sees the
same topic with a different datatype, and a second poll is a no-op on a
concrete registry. -/
theorem c7_create_subscribers_idempotent_witness :
    create_subscribers (fun t => if t = "/imu" then some "sensor_msgs/Imu" else none)
      [("/imu", "sensor_msgs/Image"), ("/cam", "sensor_msgs/Image")] "/imu" =
      some "sensor_msgs/Imu" ∧
    create_subscribers
      (create_subscribers (fun _ => none) [("/cam", "sensor_msgs/Image")])
      [("/cam", "sensor_msgs/Image")] "/cam" =
      create_subscribers (fun _ => none) [("/cam", "sensor_msgs/Image")] "/cam" :=
  ⟨(c7_create_subscribers_idempotent
      (fun t => if t = "/imu" then some "sensor_msgs/Imu" else none)
      [("/imu", "sensor_msgs/Image"), ("/cam", "sensor_msgs/Image")]).1
      "/imu" "sensor_msgs/Imu" (by decide),
    (c7_create_subscribers_idempotent (fun _ => none)
      [("/cam", "sensor_msgs/Image")]).2 "/cam"⟩

/-! ## C3: frame tree construction -/

theorem add_tf_tree_nil (pp pf : String) (maps : FrameMaps) :
    add_tf_tree [] pp pf maps = maps := by
  rw [add_tf_tree]

theorem add_tf_tree_cons (frame : String) (value : TfTree) (rest : List (String × TfTree))
    (pp pf : String) (maps : FrameMaps) :
    add_tf_tree ((frame, value) :: rest) pp pf maps =
      add_tf_tree rest pp pf
        (if value.children.length ≥ 1 then
          add_tf_tree value.children (pp ++ "/" ++ frame) frame
            ⟨mapInsert maps.toEntityPath frame (pp ++ "/" ++ frame),
              mapInsert maps.toParent frame pf⟩
        else
          ⟨mapInsert maps.toEntityPath frame (pp ++ "/" ++ frame),
            mapInsert maps.toParent frame pf⟩) := by
  rw [add_tf_tree]

theorem tfTreeFrames_nil : tfTreeFrames [] = [] := by
  rw [tfTreeFrames]

theorem tfTreeFrames_cons (frame : String) (value : TfTree)
    (rest : List (String × TfTree)) :
    tfTreeFrames ((frame, value) :: rest) =
      frame :: (tfTreeFrames value.children ++ tfTreeFrames rest) := by
  rw [tfTreeFrames]
  simp

/-- The path-shape invariant: every recorded entity path is some context
path followed by `"/" ++ frame`. -/
theorem add_tf_tree_path_shape :
    ∀ (children : List (String × TfTree)) (pp pf : String) (maps : FrameMaps),
    (∀ f path, maps.toEntityPath f = some path → ∃ q, path = q ++ "/" ++ f) →
    ∀ f path, (add_tf_tree children pp pf maps).toEntityPath f = some path →
      ∃ q, path = q ++ "/" ++ f := by
  intro children pp pf maps
  induction children, pp, pf, maps using add_tf_tree.induct with
  | case1 pp pf maps =>
    intro h f path hf
    rw [add_tf_tree_nil] at hf
    exact h f path hf
  | case2 pp pf maps frame value rest ep maps1 maps2 ihc ihc2 ihrest =>
    intro h f path hf
    have hep : ep = pp ++ "/" ++ frame := rfl
    have hm1 : maps1 = FrameMaps.mk (mapInsert maps.toEntityPath frame ep)
        (mapInsert maps.toParent frame pf) := rfl
    have hm2 : maps2 = if hcc : value.children.length ≥ 1 then
        add_tf_tree value.children ep frame maps1 else maps1 := rfl
    rw [hep] at hm1
    rw [hep, hm1] at hm2 ihc
    rw [hm2] at ihrest
    rw [add_tf_tree_cons] at hf
    have hmaps1 : ∀ f path,
        (FrameMaps.mk (mapInsert maps.toEntityPath frame (pp ++ "/" ++ frame))
          (mapInsert maps.toParent frame pf)).toEntityPath f = some path →
        ∃ q, path = q ++ "/" ++ f := by
      intro f path hf1
      simp only [mapInsert] at hf1
      by_cases hfr : f = frame
      · rw [if_pos hfr] at hf1
        obtain rfl : pp ++ "/" ++ frame = path := Option.some.inj hf1
        exact ⟨pp, by rw [hfr]⟩
      · rw [if_neg hfr] at hf1
        exact h f path hf1
    by_cases hc : value.children.length ≥ 1
    · rw [dif_pos hc] at ihrest
      rw [if_pos hc] at hf
      exact ihrest (ihc hc hmaps1) f path hf
    · rw [dif_neg hc] at ihrest
      rw [if_neg hc] at hf
      exact ihrest hmaps1 f path hf

/-- Every recorded parent is either the context marker of the call or a
frame name occurring in the declaration. -/
theorem add_tf_tree_parent_mem :
    ∀ (children : List (String × TfTree)) (pp pf : String) (maps : FrameMaps),
    ∀ f p, (add_tf_tree children pp pf maps).toParent f = some p →
      maps.toParent f = some p ∨ p = pf ∨ p ∈ tfTreeFrames children := by
  intro children pp pf maps
  induction children, pp, pf, maps using add_tf_tree.induct with
  | case1 pp pf maps =>
    intro f p hf
    rw [add_tf_tree_nil] at hf
    exact Or.inl hf
  | case2 pp pf maps frame value rest ep maps1 maps2 ihc ihc2 ihrest =>
    intro f p hf
    have hep : ep = pp ++ "/" ++ frame := rfl
    have hm1 : maps1 = FrameMaps.mk (mapInsert maps.toEntityPath frame ep)
        (mapInsert maps.toParent frame pf) := rfl
    have hm2 : maps2 = if hcc : value.children.length ≥ 1 then
        add_tf_tree value.children ep frame maps1 else maps1 := rfl
    rw [hep] at hm1
    rw [hep, hm1] at hm2 ihc
    rw [hm2] at ihrest
    rw [add_tf_tree_cons] at hf
    have hmaps1 : ∀ f p,
        (FrameMaps.mk (mapInsert maps.toEntityPath frame (pp ++ "/" ++ frame))
          (mapInsert maps.toParent frame pf)).toParent f = some p →
        maps.toParent f = some p ∨ p = pf ∨ p ∈ tfTreeFrames ((frame, value) :: rest) := by
      intro f p hf1
      simp only [mapInsert] at hf1
      by_cases hfr : f = frame
      · rw [if_pos hfr] at hf1
        exact Or.inr (Or.inl (Option.some.inj hf1).symm)
      · rw [if_neg hfr] at hf1
        exact Or.inl hf1
    by_cases hc : value.children.length ≥ 1
    · rw [dif_pos hc] at ihrest
      rw [if_pos hc] at hf
      rcases ihrest f p hf with hm | hpf | hmem
      · rcases ihc hc f p hm with hm1 | hfr | hmem1
        · exact hmaps1 f p hm1
        · refine Or.inr (Or.inr ?_)
          rw [tfTreeFrames_cons, hfr]
          exact List.mem_cons_self _ _
        · refine Or.inr (Or.inr ?_)
          rw [tfTreeFrames_cons]
          exact List.mem_cons_of_mem _ (List.mem_append_left _ hmem1)
      · exact Or.inr (Or.inl hpf)
      · refine Or.inr (Or.inr ?_)
        rw [tfTreeFrames_cons]
        exact List.mem_cons_of_mem _ (List.mem_append_right _ hmem)
    · rw [dif_neg hc] at ihrest
      rw [if_neg hc] at hf
      rcases ihrest f p hf with hm | hpf | hmem
      · exact hmaps1 f p hm
      · exact Or.inr (Or.inl hpf)
      · refine Or.inr (Or.inr ?_)
        rw [tfTreeFrames_cons]
        exact List.mem_cons_of_mem _ (List.mem_append_right _ hmem)

/-- The `tf.tree` declaration of the claim: root `A`, child `B`,
grandchild `C`. -/
def exampleTfTree : List (String × TfTree) :=
  [("A", .node [("B", .node [("C", .node [])])])]

/-- The frame maps `_add_tf_tree(tree, "", "")` builds from it. -/
def exampleFrameMaps : FrameMaps := add_tf_tree exampleTfTree "" "" emptyFrameMaps

/-- **C3**: `_add_tf_tree` gives every frame the entity path
`parent_path ++ "/" ++ frame` and records the parent frame name,
recursing with the child's path/name; on root `A`, child `B`, grandchild
`C` the entity paths are `/A` (parent `""`), `/A/B` (parent `A`),
`/A/B/C` (parent `B`), the leaf `C` included; every recorded parent is
either the root marker `""` or one of the declared (hence non-empty)
frame names. -/
theorem c3_add_tf_tree_frames :
    (exampleFrameMaps.toEntityPath "A" = some "/A" ∧
      exampleFrameMaps.toParent "A" = some "" ∧
      exampleFrameMaps.toEntityPath "B" = some "/A/B" ∧
      exampleFrameMaps.toParent "B" = some "A" ∧
      exampleFrameMaps.toEntityPath "C" = some "/A/B/C" ∧
      exampleFrameMaps.toParent "C" = some "B") ∧
    (∀ children pp pf f path,
      (add_tf_tree children pp pf emptyFrameMaps).toEntityPath f = some path →
      ∃ q, path = q ++ "/" ++ f) ∧
    (∀ children f p,
      (add_tf_tree children "" "" emptyFrameMaps).toParent f = some p →
      p = "" ∨ p ∈ tfTreeFrames children) := by
  refine ⟨?_, ?_, ?_⟩
  · simp [exampleFrameMaps, exampleTfTree, add_tf_tree_cons, add_tf_tree_nil,
      TfTree.children, mapInsert, emptyFrameMaps]
  · intro children pp pf f path hf
    exact add_tf_tree_path_shape children pp pf emptyFrameMaps
      (fun f path h => by cases h) f path hf
  · intro children f p hf
    rcases add_tf_tree_parent_mem children "" "" emptyFrameMaps f p hf with hm | hpf | hmem
    · cases hm
    · exact Or.inl hpf
    · exact Or.inr hmem

/-- Witness for C3: the recorded path of `B` has the mandated shape, and
`C`'s recorded parent `B` is a declared frame name. -/
theorem c3_add_tf_tree_frames_witness :
    (∃ q, "/A/B" = q ++ "/" ++ "B") ∧
    ("B" = "" ∨ "B" ∈ tfTreeFrames exampleTfTree) :=
  ⟨c3_add_tf_tree_frames.2.1 exampleTfTree "" "" "B" "/A/B"
      c3_add_tf_tree_frames.1.2.2.1,
    c3_add_tf_tree_frames.2.2 exampleTfTree "C" "B"
      c3_add_tf_tree_frames.1.2.2.2.2.2⟩

/-! ## C10: the TF callback's precondition -/

/-- **C10**: the bulk transform-list callback unconditionally reads
`msg->transforms[0].header.stamp` to derive the batch timestamp, so it
is well-defined exactly when the transform list is non-empty; on an
empty list the index access is out of bounds (modelled by `none`). -/
theorem c10_tf_callback_precondition (table : String → Option String)
    (st : NormState) (msg : TFMessageMsg) :
    (msg.transforms = [] → tf_message_callback table st msg = none) ∧
    (∀ first rest, msg.transforms = first :: rest →
      tf_message_callback table st msg =
        some ((normalize_timestamp st first.stamp).2,
          log_tf_message table msg (normalize_timestamp st first.stamp).1)) ∧
    ((tf_message_callback table st msg).isSome ↔ msg.transforms ≠ []) := by
  refine ⟨?_, ?_, ?_⟩
  · intro h
    simp [tf_message_callback, h]
  · intro first rest h
    simp [tf_message_callback, h]
  · cases h : msg.transforms with
    | nil => simp [tf_message_callback, h]
    | cons first rest => simp [tf_message_callback, h]

/-- Witness for C10: an empty batch is out of bounds, the two-entry
batch of C4 is processed with its first entry's stamp. -/
theorem c10_tf_callback_precondition_witness :
    tf_message_callback exampleTfTable initNormState ⟨[]⟩ = none ∧
    tf_message_callback exampleTfTable initNormState exampleTfMsg =
      some ((normalize_timestamp initNormState 1).2,
        log_tf_message exampleTfTable exampleTfMsg
          (normalize_timestamp initNormState 1).1) :=
  ⟨(c10_tf_callback_precondition exampleTfTable initNormState ⟨[]⟩).1 rfl,
    (c10_tf_callback_precondition exampleTfTable initNormState exampleTfMsg).2.1
      ⟨1, "map", "unknown", ⟨0, 0, 0⟩, ⟨0, 0, 0, 1⟩⟩
      [⟨1, "map", "base", ⟨1, 2, 3⟩, ⟨0, 0, 0, 1⟩⟩] rfl⟩

/-! ## C9: the periodic frame sampler's enablement -/

/-- **C9**: with `tf.update_rate` configured as `r`, `spin` creates the
periodic tf timer iff `r ≠ 0`; but when the key is absent the member
`_tf_fixed_rate` is never assigned (it has no default initializer and
the constructor does not set it), so the `!= 0.0` guard in `spin` reads
an indeterminate value and the claimed disabled behaviour is not
established by the code. -/
theorem c9_tf_update_rate (r : ℚ) :
    (r ≠ 0 →
      spin_creates_tf_timer (read_yaml_tf_rate tf_fixed_rate_initial (some r)) =
        some true) ∧
    spin_creates_tf_timer (read_yaml_tf_rate tf_fixed_rate_initial (some 0)) =
      some false ∧
    read_yaml_tf_rate tf_fixed_rate_initial none = none ∧
    spin_creates_tf_timer (read_yaml_tf_rate tf_fixed_rate_initial none) = none := by
  refine ⟨?_, by rfl, by rfl, by rfl⟩
  intro h
  simp [spin_creates_tf_timer, read_yaml_tf_rate, h]

/-- Witness for C9 at the configured rate `30`. -/
theorem c9_tf_update_rate_witness :
    spin_creates_tf_timer (read_yaml_tf_rate tf_fixed_rate_initial (some 30)) =
      some true :=
  (c9_tf_update_rate 30).1 (by norm_num)

/-! ## C8: per-message timestamp normalization -/

/-- A concrete camera-info message (all-zero intrinsics, stamp `5`). -/
def exampleCameraInfoMsg : CameraInfoMsg := ⟨5, fun _ => 0, 640, 480⟩

/-- **C8** fails as stated: the camera-info callback normalizes the
message's header stamp, but its pinhole emission is not stamped with the
normalized timestamp — `log_camera_info` never calls
`set_time_seconds`, so at this concrete input the callback emits one
`log` event and no `setTime` event at all. -/
theorem c8_counterexample :
    ((camera_info_callback "/topics/camera" initNormState exampleCameraInfoMsg).2.filter
        Event.isLog).length = 1 ∧
    setTimes
        (camera_info_callback "/topics/camera" initNormState exampleCameraInfoMsg).2 = [] ∧
    ¬(Event.setTime
          ((normalize_timestamp initNormState exampleCameraInfoMsg.stamp).1) ∈
        (camera_info_callback "/topics/camera" initNormState exampleCameraInfoMsg).2) := by
  refine ⟨by decide, by decide, by decide⟩

theorem setTimes_append (a b : List Event) :
    setTimes (a ++ b) = setTimes a ++ setTimes b := by
  simp [setTimes]

theorem tf_entry_setTimes (table : String → Option String) (t : ℚ)
    (transform : TransformStampedMsg) :
    ∀ u ∈ setTimes (tf_entry_events table t transform), u = t := by
  cases h : table transform.child_frame_id <;> simp [tf_entry_events, h, setTimes]

theorem log_image_setTimes (p : String) (msg : ImageMsg) (t : ℚ) :
    setTimes (log_image p msg t) = [t] := by
  by_cases h16 : msg.encoding = "16UC1"
  · simp [log_image, h16, setTimes]
  · by_cases h32 : msg.encoding = "32FC1"
    · simp [log_image, h16, h32, setTimes]
    · simp [log_image, h16, h32, setTimes]

theorem log_transform_setTimes (p : String) (m : TransformStampedMsg) (t : ℚ) :
    setTimes (log_transform p m t) = [t] := by
  simp [log_transform, setTimes]

theorem image_callback_setTimes (entity_path root_frame : String) (lk : Bool)
    (tf_lookup : Option TransformStampedMsg) (st : NormState) (msg : ImageMsg) :
    setTimes (image_callback entity_path root_frame lk tf_lookup st msg).2 =
        [(normalize_timestamp st msg.stamp).1] ∨
      setTimes (image_callback entity_path root_frame lk tf_lookup st msg).2 =
        [(normalize_timestamp st msg.stamp).1, (normalize_timestamp st msg.stamp).1] := by
  by_cases hcond : root_frame ≠ "" ∧ lk = true
  · cases tf_lookup with
    | none =>
      left
      have hev : (image_callback entity_path root_frame lk none st msg).2 =
          [.warn "lookupTransform failed"] ++
            log_image entity_path msg (normalize_timestamp st msg.stamp).1 := by
        simp [image_callback, hcond]
      rw [hev, setTimes_append, log_image_setTimes]
      simp [setTimes]
    | some transform =>
      right
      have hev : (image_callback entity_path root_frame lk (some transform) st msg).2 =
          log_transform (parent_entity_path entity_path) transform
              (normalize_timestamp st msg.stamp).1 ++
            log_image entity_path msg (normalize_timestamp st msg.stamp).1 := by
        simp [image_callback, hcond]
      rw [hev, setTimes_append, log_image_setTimes, log_transform_setTimes]
      rfl
  · left
    have hev : (image_callback entity_path root_frame lk tf_lookup st msg).2 =
        [] ++ log_image entity_path msg (normalize_timestamp st msg.stamp).1 := by
      simp [image_callback, hcond]
    rw [hev, List.nil_append, log_image_setTimes]

theorem log_tf_message_setTimes (table : String → Option String) (msg : TFMessageMsg)
    (t : ℚ) : ∀ u ∈ setTimes (log_tf_message table msg t), u = t := by
  rw [log_tf_message_eq_bind]
  induction msg.transforms with
  | nil => simp [setTimes]
  | cons x xs ih =>
    intro u hu
    rw [List.flatMap_cons, setTimes_append, List.mem_append] at hu
    rcases hu with hu | hu
    · exact tf_entry_setTimes table t x u hu
    · exact ih u hu

/-- **C8** (amended): every subscriber callback performs timestamp
normalization exactly once, on the message's own header stamp (its
post-state is the state after that single call), and every timeline
stamp it sets equals that normalized value; the emissions of all kinds
except camera-intrinsics are stamped with it, while the camera-info
callback sets no time at all; the bulk transform-list callback derives
the single batch timestamp from the first entry's header stamp. -/
theorem c8_amended_normalization (entity_path root_frame : String) (lk : Bool)
    (tf_lookup : Option TransformStampedMsg) (table : String → Option String)
    (st : NormState) :
    (∀ msg : ImuMsg,
      (imu_callback entity_path st msg).1 = (normalize_timestamp st msg.stamp).2 ∧
      setTimes (imu_callback entity_path st msg).2 =
        [(normalize_timestamp st msg.stamp).1]) ∧
    (∀ msg : ImageMsg,
      (image_callback entity_path root_frame lk tf_lookup st msg).1 =
        (normalize_timestamp st msg.stamp).2 ∧
      (∀ t ∈ setTimes (image_callback entity_path root_frame lk tf_lookup st msg).2,
        t = (normalize_timestamp st msg.stamp).1) ∧
      (normalize_timestamp st msg.stamp).1 ∈
        setTimes (image_callback entity_path root_frame lk tf_lookup st msg).2) ∧
    (∀ msg : PoseStampedMsg,
      (pose_stamped_callback entity_path st msg).1 =
        (normalize_timestamp st msg.stamp).2 ∧
      setTimes (pose_stamped_callback entity_path st msg).2 =
        [(normalize_timestamp st msg.stamp).1]) ∧
    (∀ msg : OdometryMsg,
      (odometry_callback entity_path st msg).1 = (normalize_timestamp st msg.stamp).2 ∧
      setTimes (odometry_callback entity_path st msg).2 =
        [(normalize_timestamp st msg.stamp).1]) ∧
    (∀ msg : CameraInfoMsg,
      (camera_info_callback entity_path st msg).1 =
        (normalize_timestamp st msg.stamp).2 ∧
      setTimes (camera_info_callback entity_path st msg).2 = []) ∧
    (∀ (msg : TFMessageMsg) (first : TransformStampedMsg)
        (rest : List TransformStampedMsg), msg.transforms = first :: rest →
      tf_message_callback table st msg =
        some ((normalize_timestamp st first.stamp).2,
          log_tf_message table msg (normalize_timestamp st first.stamp).1) ∧
      ∀ t ∈ setTimes (log_tf_message table msg (normalize_timestamp st first.stamp).1),
        t = (normalize_timestamp st first.stamp).1) := by
  refine ⟨?_, ?_, ?_, ?_, ?_, ?_⟩
  · intro msg
    exact ⟨rfl, by simp [imu_callback, log_imu, setTimes]⟩
  · intro msg
    refine ⟨rfl, ?_, ?_⟩
    · intro t ht
      rcases image_callback_setTimes entity_path root_frame lk tf_lookup st msg with
        hev | hev <;> rw [hev] at ht <;> simpa using ht
    · rcases image_callback_setTimes entity_path root_frame lk tf_lookup st msg with
        hev | hev <;> rw [hev] <;> simp
  · intro msg
    exact ⟨rfl, by simp [pose_stamped_callback, log_pose_stamped, setTimes]⟩
  · intro msg
    exact ⟨rfl, by simp [odometry_callback, log_odometry, setTimes]⟩
  · intro msg
    exact ⟨rfl, by simp [camera_info_callback, log_camera_info, setTimes]⟩
  · intro msg first rest h
    refine ⟨by simp [tf_message_callback, h], ?_⟩
    exact log_tf_message_setTimes table msg (normalize_timestamp st first.stamp).1

/-- Witness for C8 (amended) on concrete messages: an inertial sample is
stamped with its own normalized time, and the two-entry tf batch of C4
uses the first entry's stamp throughout. -/
theorem c8_amended_normalization_witness :
    setTimes (imu_callback "/topics/imu" initNormState ⟨4, ⟨1, 2, 3⟩⟩).2 =
      [(normalize_timestamp initNormState 4).1] ∧
    ∀ t ∈ setTimes (log_tf_message exampleTfTable exampleTfMsg
        (normalize_timestamp initNormState 1).1),
      t = (normalize_timestamp initNormState 1).1 :=
  ⟨((c8_amended_normalization "/topics/imu" "" false none exampleTfTable
      initNormState).1 ⟨4, ⟨1, 2, 3⟩⟩).2,
    ((c8_amended_normalization "/topics/imu" "" false none exampleTfTable
      initNormState).2.2.2.2.2 exampleTfMsg
      ⟨1, "map", "unknown", ⟨0, 0, 0⟩, ⟨0, 0, 0, 1⟩⟩
      [⟨1, "map", "base", ⟨1, 2, 3⟩, ⟨0, 0, 0, 1⟩⟩] rfl).2⟩

end RerunBridge
